import Mathlib

/-!
Shallow embedding of the UltraDNS provider (octodns-ultra, file
src/octodns_ultra/__init__.py) and proofs about it.

Python dicts keyed by strings are modelled as association lists
(`lookupA`, `setA`, `popA`); Python's `str.replace` is modelled on
lists of characters (`strReplace`); HTTP traffic is modelled by request
traces (lists of `Req` values) together with response oracles supplied
as arguments; Python exceptions are modelled by `Option`/dedicated
outcome constructors.
-/

namespace UltraSpec

/-- Association-list model of a Python dict keyed by strings:
lookup of the first matching key, `none` models a `KeyError`/absence. -/
def lookupA {α : Type} : List (String × α) → String → Option α
  | [], _ => none
  | (k, v) :: rest, key => if k = key then some v else lookupA rest key

/-- Dict assignment `d[key] = v`: replaces the value of an existing key in
place, otherwise appends the new binding. -/
def setA {α : Type} : List (String × α) → String → α → List (String × α)
  | [], key, v => [(key, v)]
  | (k, w) :: rest, key, v =>
    if k = key then (k, v) :: rest else (k, w) :: setA rest key v

/-- Dict removal `d.pop(key, None)`: drops every binding of `key`. -/
def popA {α : Type} : List (String × α) → String → List (String × α)
  | [], _ => []
  | (k, w) :: rest, key =>
    if k = key then popA rest key else (k, w) :: popA rest key

theorem lookupA_setA_self {α : Type} (m : List (String × α)) (k : String) (v : α) :
    lookupA (setA m k v) k = some v := by
  induction m with
  | nil => simp [setA, lookupA]
  | cons hd tl ih =>
    obtain ⟨k', w⟩ := hd
    by_cases h : k' = k
    · simp [setA, lookupA, h]
    · simp [setA, lookupA, h, ih]

theorem lookupA_setA_ne {α : Type} (m : List (String × α)) (k k' : String) (v : α)
    (h : k ≠ k') : lookupA (setA m k v) k' = lookupA m k' := by
  induction m with
  | nil => simp [setA, lookupA, h]
  | cons hd tl ih =>
    obtain ⟨k0, w⟩ := hd
    by_cases h0 : k0 = k
    · subst h0
      simp [setA, lookupA, h]
    · simp [setA, lookupA, h0, ih]

theorem lookupA_popA_self {α : Type} (m : List (String × α)) (k : String) :
    lookupA (popA m k) k = none := by
  induction m with
  | nil => simp [popA, lookupA]
  | cons hd tl ih =>
    obtain ⟨k0, w⟩ := hd
    by_cases h0 : k0 = k
    · simp [popA, h0, ih]
    · simp [popA, lookupA, h0, ih]

theorem lookupA_popA_ne {α : Type} (m : List (String × α)) (k k' : String)
    (h : k' ≠ k) : lookupA (popA m k) k' = lookupA m k' := by
  induction m with
  | nil => simp [popA]
  | cons hd tl ih =>
    obtain ⟨k0, w⟩ := hd
    by_cases h0 : k0 = k
    · subst h0
      have : ¬(k0 = k') := fun hh => h (hh ▸ rfl)
      simp [popA, lookupA, this, ih]
    · simp [popA, lookupA, h0, ih]

/-- Python `str.replace(pat, rep)` on lists of characters: replaces every
non-overlapping occurrence of `pat` by `rep`, scanning left to right.
This is the operation used by `_data_for_TXT` and `_contents_for_TXT`. -/
def strReplace (pat rep : List Char) : List Char → List Char
  | [] => []
  | c :: s =>
    if h : pat ≠ [] ∧ pat.isPrefixOf (c :: s) = true then
      rep ++ strReplace pat rep ((c :: s).drop pat.length)
    else
      c :: strReplace pat rep s
termination_by s => s.length
decreasing_by
  · have hp : 0 < pat.length := List.length_pos.mpr h.1
    simp only [List.length_drop, List.length_cons]
    omega
  · simp only [List.length_cons]
    omega

theorem strReplace_nil (pat rep : List Char) : strReplace pat rep [] = [] := by
  simp [strReplace]

theorem decode_cons (c : Char) (s : List Char) :
    strReplace [';'] ['\\', ';'] (c :: s) =
      if c = ';' then '\\' :: ';' :: strReplace [';'] ['\\', ';'] s
      else c :: strReplace [';'] ['\\', ';'] s := by
  by_cases hc : c = ';'
  · subst hc
    rw [if_pos rfl]
    rw [strReplace]
    simp [List.isPrefixOf]
  · rw [if_neg hc]
    rw [strReplace]
    simp [List.isPrefixOf, hc]
    intro hh
    exact absurd hh.symm hc

theorem encode_cons_hit (s : List Char) :
    strReplace ['\\', ';'] [';'] ('\\' :: ';' :: s) =
      ';' :: strReplace ['\\', ';'] [';'] s := by
  rw [strReplace]
  simp [List.isPrefixOf]

theorem encode_cons_miss (c : Char) (s : List Char)
    (h : ¬(c = '\\' ∧ s.head? = some ';')) :
    strReplace ['\\', ';'] [';'] (c :: s) = c :: strReplace ['\\', ';'] [';'] s := by
  cases s with
  | nil =>
    simp [strReplace, List.isPrefixOf]
  | cons d s' =>
    by_cases hc : c = '\\'
    · have hd : ¬(d = ';') := by
        intro hd
        exact h ⟨hc, by simp [hd]⟩
      subst hc
      rw [strReplace]
      simp [List.isPrefixOf]
      intro hh
      exact absurd hh.symm hd
    · rw [strReplace]
      simp [List.isPrefixOf]
      intro hh
      exact absurd hh.symm hc

/-- Pointwise description of what decoding a TXT data string does to one
character: a literal semicolon becomes backslash-semicolon. -/
def escSemi (c : Char) : List Char := if c = ';' then ['\\', ';'] else [c]

theorem decode_eq_bind (v : List Char) :
    strReplace [';'] ['\\', ';'] v = v.flatMap escSemi := by
  induction v with
  | nil => simp [strReplace_nil]
  | cons c s ih =>
    rw [decode_cons, List.flatMap_cons]
    by_cases hc : c = ';'
    · subst hc
      simp [escSemi, ih]
    · simp [escSemi, hc, ih]

theorem bind_escSemi_head_ne (v : List Char) :
    ¬((v.flatMap escSemi).head? = some ';') := by
  cases v with
  | nil => simp
  | cons c s =>
    rw [List.flatMap_cons]
    by_cases hc : c = ';'
    · subst hc
      simp [escSemi]
    · simp [escSemi, hc]

theorem encode_bind_escSemi (v : List Char) :
    strReplace ['\\', ';'] [';'] (v.flatMap escSemi) = v := by
  induction v with
  | nil => simp [strReplace_nil]
  | cons c s ih =>
    rw [List.flatMap_cons]
    by_cases hc : c = ';'
    · subst hc
      show strReplace ['\\', ';'] [';'] (['\\', ';'] ++ s.flatMap escSemi) = _
      rw [List.cons_append, List.singleton_append, encode_cons_hit, ih]
    · rw [show escSemi c = [c] by simp [escSemi, hc], List.singleton_append]
      rw [encode_cons_miss c _ (fun hh => bind_escSemi_head_ne s hh.2), ih]

theorem strReplace_semi_roundtrip (v : List Char) :
    strReplace ['\\', ';'] [';'] (strReplace [';'] ['\\', ';'] v) = v := by
  rw [decode_eq_bind, encode_bind_escSemi]

/-- The slice of a vendor rrset dict that the `_data_for_*` decoders read:
`records['ttl']` and `records['rdata']`. Data strings are lists of characters. -/
structure UltraRRSetData where
  ttl : Nat
  rdata : List (List Char)

/-- Return value of `_data_for_TXT`: a dict with keys ttl, type, values. -/
structure TXTData where
  ttl : Nat
  rtype : String
  values : List (List Char)

/-- Model of `_data_for_TXT`: values are the raw data strings with every
literal semicolon replaced by backslash-semicolon. -/
def data_for_TXT (t : String) (records : UltraRRSetData) : TXTData :=
  ⟨records.ttl, t, records.rdata.map (strReplace [';'] ['\\', ';'])⟩

/-- The slice of an octodns TXT record that `_contents_for_TXT` reads. -/
structure TXTRecordModel where
  ttl : Nat
  values : List (List Char)

/-- Return value of `_contents_for_TXT`: a dict with keys ttl, rdata. -/
structure TXTContents where
  ttl : Nat
  rdata : List (List Char)

/-- Model of `_contents_for_TXT`: rdata is the record's values with every
backslash-semicolon replaced by a literal semicolon. -/
def contents_for_TXT (record : TXTRecordModel) : TXTContents :=
  ⟨record.ttl, record.values.map (strReplace ['\\', ';'] [';'])⟩

/-- C3: for every TXT rrset, decode replaces each literal semicolon in each
raw data string with backslash-semicolon, encode replaces each
backslash-semicolon with a semicolon, and encoding the decoded values
restores the raw vendor data strings exactly. -/
theorem txt_decode_encode_roundtrip (t : String) (records : UltraRRSetData) :
    (data_for_TXT t records).values =
      records.rdata.map (fun r => r.flatMap escSemi) ∧
    (contents_for_TXT ⟨(data_for_TXT t records).ttl,
        (data_for_TXT t records).values⟩).rdata = records.rdata := by
  constructor
  · show records.rdata.map (strReplace [';'] ['\\', ';']) = _
    rw [show strReplace [';'] ['\\', ';'] = fun r => r.flatMap escSemi from
      funext decode_eq_bind]
  · show (records.rdata.map (strReplace [';'] ['\\', ';'])).map
      (strReplace ['\\', ';'] [';']) = records.rdata
    rw [List.map_map,
      show strReplace ['\\', ';'] [';'] ∘ strReplace [';'] ['\\', ';'] = id from
        funext (fun v => strReplace_semi_roundtrip v),
      List.map_id]

/-- Minimal JSON value model for decoded response bodies. -/
inductive JValue where
  | jnull
  | jbool (b : Bool)
  | jnum (n : Int)
  | jstr (s : String)
  | jarr (xs : List JValue)
  | jobj (fields : List (String × JValue))

/-- Python `len(payload)`: defined for lists, dicts and strings,
a `TypeError` (`none`) otherwise. -/
def pyLen : JValue → Option Nat
  | .jarr xs => some xs.length
  | .jobj fs => some fs.length
  | .jstr s => some s.length
  | _ => none

/-- Python `payload[0]` as used in `_request`: the first element of a list;
anything that would raise (`KeyError` on a dict with string keys,
`IndexError` on an empty list) or that a subsequent string-key lookup would
reject with a `TypeError` is `none`. -/
def pyIndex0 : JValue → Option JValue
  | .jarr (x :: _) => some x
  | _ => none

/-- Python `x[key]` for a string key: dict lookup, `none` models
`KeyError`/`TypeError`. -/
def getField (j : JValue) (key : String) : Option JValue :=
  match j with
  | .jobj fs => lookupA fs key
  | _ => none

/-- Python `v == 70002` on a decoded JSON value. -/
def isNum70002 : JValue → Bool
  | .jnum n => n == 70002
  | _ => false

/-- Payload returned by a successful `_request`. -/
inductive HttpPayload where
  | json (v : JValue)
  | text (s : String)

/-- Outcome of a `_request` call: the distinguished exceptions raised by
the method, a JSON decoding failure of `resp.json()`, a Python evaluation
error inside the 70002 check, the `HTTPError` from `raise_for_status`,
or the returned payload. -/
inductive ReqOutcome where
  | unauthorized
  | noZonesExist
  | jsonDecodeError
  | pyError
  | httpError (status : Nat)
  | ok (payload : HttpPayload)

/-- `resp.raise_for_status()` followed by `return payload`: 4xx/5xx raise
`HTTPError`, every other status returns the payload. -/
def raiseForStatus (status : Nat) (payload : HttpPayload) : ReqOutcome :=
  if 400 ≤ status ∧ status < 600 then .httpError status else .ok payload

/-- Model of `_request`: `status` is the HTTP status code, `body` the result
of `resp.json()` (`none` when the body is not valid JSON), `text` the raw
body text, `json_response` the `json_response` flag.  Mirrors the source
order: the 401 check first, then (for JSON responses) `resp.json()`, then
the 404/70002 check with Python short-circuit evaluation, then
`raise_for_status`. -/
def requestOutcome (status : Nat) (body : Option JValue) (text : String)
    (json_response : Bool) : ReqOutcome :=
  if status = 401 then .unauthorized
  else if json_response then
    match body with
    | none => .jsonDecodeError
    | some payload =>
      if status = 404 then
        match pyLen payload with
        | none => .pyError
        | some n =>
          if n = 1 then
            match (pyIndex0 payload).bind (fun x => getField x "errorCode") with
            | none => .pyError
            | some v =>
              if isNum70002 v then .noZonesExist
              else raiseForStatus status (.json payload)
          else raiseForStatus status (.json payload)
      else raiseForStatus status (.json payload)
  else raiseForStatus status (.text text)

/-- The vendor's no-zones body: a single-element array whose object carries
errorCode 70002. -/
def noZonesBody : JValue := .jarr [.jobj [("errorCode", .jnum 70002)]]

/-- C1 counterexample: an HTTP 200 response whose decoded body is the
single-element 70002 array does not produce the NoZonesExist condition —
the source additionally requires status 404, so the claim's
status-independence fails. -/
theorem request_noZones_status_counterexample :
    requestOutcome 200 (some noZonesBody) "" true ≠ ReqOutcome.noZonesExist :=
  fun h => nomatch h

/-- C1 (amended): for a response with HTTP status 404 whose decoded JSON
body is a single-element array whose object carries errorCode 70002,
`_request` fails with the NoZonesExist condition. -/
theorem request_noZones_404 (fields : List (String × JValue)) (text : String)
    (h : lookupA fields "errorCode" = some (JValue.jnum 70002)) :
    requestOutcome 404 (some (JValue.jarr [JValue.jobj fields])) text true =
      ReqOutcome.noZonesExist := by
  simp [requestOutcome, pyLen, pyIndex0, getField, h, isNum70002]

/-- C1 witness: the amended theorem applied at a concrete 404 response. -/
theorem request_noZones_404_witness :
    lookupA [("errorCode", JValue.jnum 70002)] "errorCode" =
        some (JValue.jnum 70002) ∧
      requestOutcome 404
        (some (JValue.jarr [JValue.jobj [("errorCode", JValue.jnum 70002)]]))
        "" true = ReqOutcome.noZonesExist :=
  ⟨rfl, request_noZones_404 [("errorCode", JValue.jnum 70002)] "" rfl⟩

/-- C10: for every request with json_response, the body is JSON-decoded
before the HTTP status is checked (only 401 is checked first), so a non-401
response whose body is not valid JSON fails with a JSON decoding error
rather than with the generic HTTP error. -/
theorem request_invalid_json_before_status (status : Nat) (text : String)
    (h : status ≠ 401) :
    requestOutcome status none text true = ReqOutcome.jsonDecodeError := by
  simp [requestOutcome, h]

/-- C10 witness: a 500 response with an undecodable body. -/
theorem request_invalid_json_before_status_witness :
    (500 ≠ 401) ∧
      requestOutcome 500 none "" true = ReqOutcome.jsonDecodeError :=
  ⟨by decide, request_invalid_json_before_status 500 "" (by decide)⟩

/-- The slice of an octodns A/AAAA record that
`_contents_for_multiple_resource_distribution` reads. -/
structure ARecord where
  fqdn : String
  ttl : Nat
  values : List String

/-- The rdpool profile block emitted for multi-value A/AAAA records. -/
structure RDProfile where
  atContext : String
  order : String
  description : String
deriving DecidableEq

/-- Payload built for an A/AAAA rrset; `profile = none` models the absence
of the profile key. -/
structure RDPayload where
  ttl : Nat
  rdata : List String
  profile : Option RDProfile
deriving DecidableEq

/-- Model of `_contents_for_multiple_resource_distribution` (used for A and
AAAA): more than one value adds the fixed-order rdpool profile block, one
value omits the profile key. -/
def contents_for_multiple_resource_distribution (record : ARecord) : RDPayload :=
  if record.values.length > 1 then
    ⟨record.ttl, record.values,
      some ⟨"http://schemas.ultradns.com/RDPool.jsonschema", "FIXED", record.fqdn⟩⟩
  else
    ⟨record.ttl, record.values, none⟩

/-- C4: the A/AAAA payload carries the record's TTL and value list, has the
FIXED-order profile with description equal to the record's fqdn exactly when
there are two or more values, and has no profile key with exactly one value. -/
theorem contents_A_profile_spec (record : ARecord) :
    (contents_for_multiple_resource_distribution record).ttl = record.ttl ∧
    (contents_for_multiple_resource_distribution record).rdata = record.values ∧
    (2 ≤ record.values.length →
      (contents_for_multiple_resource_distribution record).profile =
        some ⟨"http://schemas.ultradns.com/RDPool.jsonschema", "FIXED",
          record.fqdn⟩) ∧
    (record.values.length = 1 →
      (contents_for_multiple_resource_distribution record).profile = none) ∧
    ((contents_for_multiple_resource_distribution record).profile.isSome ↔
      2 ≤ record.values.length) := by
  unfold contents_for_multiple_resource_distribution
  by_cases h : record.values.length > 1
  · simp [h]
    omega
  · simp [h]
    omega

/-- A concrete two-value A record. -/
def rec4 : ARecord := ⟨"foo.unit.tests.", 300, ["1.2.3.4", "5.6.7.8"]⟩

/-- C4 witness: the profile block appears on a concrete two-value record. -/
theorem contents_A_profile_spec_witness :
    2 ≤ rec4.values.length ∧
      (contents_for_multiple_resource_distribution rec4).profile =
        some ⟨"http://schemas.ultradns.com/RDPool.jsonschema", "FIXED",
          rec4.fqdn⟩ :=
  ⟨by decide, (contents_A_profile_spec rec4).2.2.1 (by decide)⟩

/-- One vendor zone entry as consumed by the `zones` property:
`z['properties']['name']`. -/
structure ZoneEntry where
  propName : String
deriving DecidableEq

/-- One response to a GET /v3/zones request: either the NoZonesExist
condition (the 70002 body) or a page with its zone entries and the optional
`cursorInfo['next']` token. -/
inductive ZonesResp where
  | noZones
  | page (zones : List ZoneEntry) (next : Option String)
deriving DecidableEq

/-- The query parameters sent with one GET /v3/zones request. -/
structure ZoneReq where
  limit : Nat
  q : String
  cursor : Option String
deriving DecidableEq

def ZONE_REQUEST_LIMIT : Nat := 1000

/-- The paging loop of the `zones` property: consumes one oracle response
per request, returns the requests issued and the accumulated zone entries.
`none` models the server failing to answer while the loop still pages.
A NoZonesExist response ends the loop keeping what was accumulated;
a page with a `next` token loops with that token as the cursor parameter. -/
def zonesLoop (limit : Nat) (q : String) :
    Option String → List ZonesResp → Option (List ZoneReq × List ZoneEntry)
  | _, [] => none
  | cursor, ZonesResp.noZones :: _ => some ([⟨limit, q, cursor⟩], [])
  | cursor, ZonesResp.page zs next :: rest =>
    match next with
    | none => some ([⟨limit, q, cursor⟩], zs)
    | some c =>
      (zonesLoop limit q (some c) rest).map
        (fun p => (⟨limit, q, cursor⟩ :: p.1, zs ++ p.2))

/-- Model of the `zones` property on a cold cache: page with limit 1000 and
the PRIMARY filter, then map each accumulated entry to its properties.name. -/
def zonesFetch (resps : List ZonesResp) : Option (List ZoneReq × List String) :=
  (zonesLoop ZONE_REQUEST_LIMIT "zone_type:PRIMARY" none resps).map
    (fun p => (p.1, p.2.map ZoneEntry.propName))

theorem zonesLoop_head_req (limit : Nat) (q : String) (cursor : Option String)
    (resps : List ZonesResp) (reqs : List ZoneReq) (entries : List ZoneEntry)
    (h : zonesLoop limit q cursor resps = some (reqs, entries)) :
    reqs.head? = some ⟨limit, q, cursor⟩ := by
  cases resps with
  | nil => exact nomatch h
  | cons r rest =>
    cases r with
    | noZones =>
      rw [show zonesLoop limit q cursor (ZonesResp.noZones :: rest) =
        some ([⟨limit, q, cursor⟩], []) from rfl] at h
      injection h with h'
      injection h' with h1 h2
      rw [← h1]
      rfl
    | page zs next =>
      cases next with
      | none =>
        rw [show zonesLoop limit q cursor (ZonesResp.page zs none :: rest) =
          some ([⟨limit, q, cursor⟩], zs) from rfl] at h
        injection h with h'
        injection h' with h1 h2
        rw [← h1]
        rfl
      | some c =>
        rw [show zonesLoop limit q cursor (ZonesResp.page zs (some c) :: rest) =
          (zonesLoop limit q (some c) rest).map
            (fun p => (⟨limit, q, cursor⟩ :: p.1, zs ++ p.2)) from rfl] at h
        cases hx : zonesLoop limit q (some c) rest with
        | none =>
          rw [hx] at h
          exact nomatch h
        | some p =>
          rw [hx] at h
          simp only [Option.map_some'] at h
          injection h with h'
          injection h' with h1 h2
          rw [← h1]
          rfl

/-- C5: the first zones request carries limit 1000, the PRIMARY filter and
no cursor; while a page's cursorInfo has a `next` token the loop issues a
further request carrying that token as the cursor and concatenates the page
names in response order; a NoZonesExist response stops paging without an
error, so NoZonesExist on the first page yields an empty zone list. -/
theorem zones_paging_spec :
    (∀ (cursor : Option String) (resps : List ZonesResp) (reqs : List ZoneReq)
        (entries : List ZoneEntry),
      zonesLoop ZONE_REQUEST_LIMIT "zone_type:PRIMARY" cursor resps =
          some (reqs, entries) →
      reqs.head? = some ⟨1000, "zone_type:PRIMARY", cursor⟩) ∧
    (∀ (zs : List ZoneEntry) (c : String) (rest : List ZonesResp)
        (reqs : List ZoneReq) (names : List String),
      zonesFetch (ZonesResp.page zs (some c) :: rest) = some (reqs, names) →
      ∃ reqs2 entries2,
        zonesLoop ZONE_REQUEST_LIMIT "zone_type:PRIMARY" (some c) rest =
            some (reqs2, entries2) ∧
        reqs = ⟨1000, "zone_type:PRIMARY", none⟩ :: reqs2 ∧
        reqs2.head? = some ⟨1000, "zone_type:PRIMARY", some c⟩ ∧
        names = zs.map ZoneEntry.propName ++ entries2.map ZoneEntry.propName) ∧
    (∀ (cursor : Option String) (rest : List ZonesResp),
      zonesLoop ZONE_REQUEST_LIMIT "zone_type:PRIMARY" cursor
          (ZonesResp.noZones :: rest) =
        some ([⟨1000, "zone_type:PRIMARY", cursor⟩], [])) ∧
    (∀ rest : List ZonesResp,
      zonesFetch (ZonesResp.noZones :: rest) =
        some ([⟨1000, "zone_type:PRIMARY", none⟩], [])) := by
  refine ⟨?_, ?_, ?_, ?_⟩
  · intro cursor resps reqs entries h
    exact zonesLoop_head_req _ _ _ _ _ _ h
  · intro zs c rest reqs names h
    unfold zonesFetch at h
    cases hx : zonesLoop ZONE_REQUEST_LIMIT "zone_type:PRIMARY" (some c) rest with
    | none =>
      rw [show zonesLoop ZONE_REQUEST_LIMIT "zone_type:PRIMARY" none
          (ZonesResp.page zs (some c) :: rest) =
          (zonesLoop ZONE_REQUEST_LIMIT "zone_type:PRIMARY" (some c) rest).map
            (fun p => (⟨ZONE_REQUEST_LIMIT, "zone_type:PRIMARY", none⟩ :: p.1,
              zs ++ p.2)) from rfl, hx] at h
      exact nomatch h
    | some p =>
      obtain ⟨preqs, pents⟩ := p
      rw [show zonesLoop ZONE_REQUEST_LIMIT "zone_type:PRIMARY" none
          (ZonesResp.page zs (some c) :: rest) =
          (zonesLoop ZONE_REQUEST_LIMIT "zone_type:PRIMARY" (some c) rest).map
            (fun p => (⟨ZONE_REQUEST_LIMIT, "zone_type:PRIMARY", none⟩ :: p.1,
              zs ++ p.2)) from rfl, hx] at h
      simp only [Option.map_some'] at h
      injection h with h'
      have hreq : reqs = ⟨1000, "zone_type:PRIMARY", none⟩ :: preqs :=
        (congrArg Prod.fst h').symm
      have hnames : names =
          zs.map ZoneEntry.propName ++ pents.map ZoneEntry.propName := by
        have := (congrArg Prod.snd h').symm
        simpa using this
      exact ⟨preqs, pents, rfl, hreq,
        zonesLoop_head_req _ _ _ _ _ _ hx, hnames⟩
  · intro cursor rest
    rfl
  · intro rest
    rfl

/-- A concrete two-page zones exchange. -/
def respsW : List ZonesResp :=
  [ZonesResp.page [⟨"a.example."⟩] (some "tok1"),
    ZonesResp.page [⟨"b.example."⟩] none]

def reqsW : List ZoneReq :=
  [⟨1000, "zone_type:PRIMARY", none⟩, ⟨1000, "zone_type:PRIMARY", some "tok1"⟩]

def entriesW : List ZoneEntry := [⟨"a.example."⟩, ⟨"b.example."⟩]

/-- C5 witness: the first-request property applied to the concrete
two-page exchange. -/
theorem zones_paging_spec_witness :
    zonesLoop ZONE_REQUEST_LIMIT "zone_type:PRIMARY" none respsW =
        some (reqsW, entriesW) ∧
      reqsW.head? = some ⟨1000, "zone_type:PRIMARY", none⟩ :=
  ⟨rfl, zones_paging_spec.1 none respsW reqsW entriesW rfl⟩

/-- One vendor rrset as returned by GET rrsets and cached per zone:
`ownerName`, `rrtype`, TTL, raw data strings, and the optional profile dict
(modelled as its string-valued entries; empty list = no profile key). -/
structure VRec where
  ownerName : String
  rrtype : String
  ttl : Nat
  rdata : List String
  profile : List (String × String)
deriving DecidableEq

/-- One response page of GET /v2/zones/z/rrsets, with its resultInfo. -/
structure RRSetPage where
  rrSets : List VRec
  offset : Nat
  returnedCount : Nat
  totalCount : Nat
deriving DecidableEq

/-- The provider's mutable caches: `self.zones` (already fetched) and
`self._zone_records`. -/
structure PState where
  zones : List String
  zoneRecords : List (String × List VRec)
deriving DecidableEq

/-- JSON body of the zone-creation POST. -/
structure ZoneCreateBody where
  name : String
  accountName : String
  ztype : String
  createType : String
deriving DecidableEq

/-- One HTTP request issued by the applier / record fetcher. -/
inductive Req where
  | postZoneCreate (body : ZoneCreateBody)
  | getRRSets (zoneName : String) (offset limit : Nat)
  | postRRSet (path : String)
  | putRRSet (path : String)
  | deleteRRSet (path : String)
deriving DecidableEq

def RRSET_REQUEST_LIMIT : Nat := 1000

/-- The RECORDS_TO_TYPE table mapping vendor rrtype labels to octodns types. -/
def RECORDS_TO_TYPE : List (String × String) :=
  [("A (1)", "A"), ("AAAA (28)", "AAAA"), ("APEXALIAS (65282)", "ALIAS"),
    ("CAA (257)", "CAA"), ("CNAME (5)", "CNAME"), ("MX (15)", "MX"),
    ("NS (2)", "NS"), ("PTR (12)", "PTR"), ("SRV (33)", "SRV"),
    ("TXT (16)", "TXT")]

/-- The offset/limit paging loop of `zone_records`: one oracle page per
request.  The request trace records each GET with the offset it carried;
the loop continues while `info['offset'] + info['returnedCount'] <
info['totalCount']`, advancing the local offset by returnedCount.  `none`
models the server failing to answer while the loop still pages. -/
def rrsetLoop (zname : String) (limit : Nat) :
    List RRSetPage → Nat → Option (List VRec × List Req)
  | [], _ => none
  | p :: rest, offset =>
    if p.offset + p.returnedCount < p.totalCount then
      (rrsetLoop zname limit rest (offset + p.returnedCount)).map
        (fun r => (p.rrSets ++ r.1, Req.getRRSets zname offset limit :: r.2))
    else
      some (p.rrSets, [Req.getRRSets zname offset limit])

/-- Model of `zone_records` for a zone name, with `self.zones` already
fetched (field `zones` of the state): a cached zone returns its snapshot
with no request; an uncached zone absent from the zone list returns an
empty list with no request and no caching; otherwise the rrset pages are
fetched from the oracle and cached.  Returns (records, request trace, new
state). -/
def zone_records (oracle : String → List RRSetPage) (st : PState)
    (zname : String) : Option (List VRec × List Req × PState) :=
  match lookupA st.zoneRecords zname with
  | some recs => some (recs, [], st)
  | none =>
    if zname ∈ st.zones then
      (rrsetLoop zname RRSET_REQUEST_LIMIT (oracle zname) 0).map
        (fun r => (r.1, r.2,
          { st with zoneRecords := setA st.zoneRecords zname r.1 }))
    else
      some ([], [], st)

/-- The slice of an octodns record (and its zone) that the applier reads:
zone-relative `name`, octodns `_type`, `fqdn`, and `zone.name` (the zone the
record belongs to, used by `_apply_Delete` to fetch the snapshot). -/
structure Rec where
  name : String
  rtype : String
  fqdn : String
  zoneName : String
deriving DecidableEq

/-- Model of `_remove_prefix`. -/
def removeLeading (text pfx : String) : String :=
  if pfx.isPrefixOf text then text.drop pfx.length else text

/-- The rrset path built by `_gen_data`: ALIAS is rewritten to APEXALIAS and
the zone name is the fqdn with the relative name and a dot stripped. -/
def genPath (record : Rec) : String :=
  let zone_name := removeLeading record.fqdn (record.name ++ ".")
  let record_type := if record.rtype = "ALIAS" then "APEXALIAS" else record.rtype
  "/v2/zones/" ++ zone_name ++ "/rrsets/" ++ record_type ++ "/" ++ record.fqdn

/-- The rrset path built inline by `_apply_Delete` (same formula as
`_gen_data`). -/
def deletePath (existing : Rec) : String :=
  let zone_name := removeLeading existing.fqdn (existing.name ++ ".")
  let existing_type := if existing.rtype = "ALIAS" then "APEXALIAS" else existing.rtype
  "/v2/zones/" ++ zone_name ++ "/rrsets/" ++ existing_type ++ "/" ++ existing.fqdn

/-- The scan loop of `_apply_Delete` over the zone's rrset snapshot: SOA
entries are skipped; for an entry whose ownerName equals the record's fqdn
the rrtype is looked up in RECORDS_TO_TYPE — a missing label is a
`KeyError` (`none`), Python's short-circuit `and` never evaluating the
lookup when the ownerName differs; every matching entry issues a DELETE. -/
def applyDeleteScan (existing : Rec) : List VRec → Option (List Req)
  | [] => some []
  | r :: rest =>
    if r.rrtype = "SOA (6)" then applyDeleteScan existing rest
    else if existing.fqdn = r.ownerName then
      match lookupA RECORDS_TO_TYPE r.rrtype with
      | none => none
      | some ty =>
        if existing.rtype = ty then
          (applyDeleteScan existing rest).map
            (fun reqs => Req.deleteRRSet (deletePath existing) :: reqs)
        else applyDeleteScan existing rest
    else applyDeleteScan existing rest

/-- Model of `_apply_Delete`: fetch the snapshot of the existing record's
zone through `zone_records` (respecting its cache), then scan it. -/
def apply_Delete (oracle : String → List RRSetPage) (st : PState)
    (existing : Rec) : Option (List Req × PState) :=
  (zone_records oracle st existing.zoneName).bind
    (fun r => (applyDeleteScan existing r.1).map
      (fun dreqs => (r.2.1 ++ dreqs, r.2.2)))

/-- An existing record matches a snapshot entry when the entry is not SOA,
the owner names agree, and the entry's rrtype maps to the record's type. -/
def deleteMatches (existing : Rec) (r : VRec) : Prop :=
  r.rrtype ≠ "SOA (6)" ∧ existing.fqdn = r.ownerName ∧
    lookupA RECORDS_TO_TYPE r.rrtype = some existing.rtype

instance (existing : Rec) (r : VRec) : Decidable (deleteMatches existing r) := by
  unfold deleteMatches
  infer_instance

def DirPoolContext : String := "http://schemas.ultradns.com/DirPool.jsonschema"

/-- The record-filtering chain of `populate`: skip SOA, skip directional
A pools, skip (with a warning) any rrtype missing from RECORDS_TO_TYPE,
keep everything else.  (The kept records are then grouped by name and type;
the grouping is irrelevant to the properties stated here.) -/
def populateKept : List VRec → List VRec
  | [] => []
  | r :: rest =>
    if r.rrtype = "SOA (6)" then populateKept rest
    else if r.rrtype = "A (1)" ∧ lookupA r.profile "@context" = some DirPoolContext then
      populateKept rest
    else
      match lookupA RECORDS_TO_TYPE r.rrtype with
      | none => populateKept rest
      | some _ => r :: populateKept rest

/-- C7: for a zone name absent from the cached zone list (under the
invariant, maintained by all operations, that every per-zone cache key is a
listed zone), `zone_records` returns an empty list, issues no rrset HTTP
request, and leaves the state unchanged. -/
theorem zone_records_absent_zone (oracle : String → List RRSetPage)
    (st : PState) (zname : String)
    (hinv : ∀ k recs, lookupA st.zoneRecords k = some recs → k ∈ st.zones)
    (habs : zname ∉ st.zones) :
    zone_records oracle st zname = some ([], [], st) := by
  unfold zone_records
  cases hl : lookupA st.zoneRecords zname with
  | some recs => exact absurd (hinv zname recs hl) habs
  | none => simp [habs]

/-- A state with one cached zone list entry and an empty record cache. -/
def st7 : PState := ⟨["alpha.example."], []⟩

/-- C7 witness: a concrete absent zone. -/
theorem zone_records_absent_zone_witness :
    ("beta.example." ∉ st7.zones) ∧
      zone_records (fun _ => []) st7 "beta.example." = some ([], [], st7) :=
  ⟨by decide,
    zone_records_absent_zone (fun _ => []) st7 "beta.example."
      (fun k recs h => nomatch h) (by decide)⟩

/-- Helper for C6: the delete scan of a snapshot with no matching entry —
all of whose entries with the record's owner name have a supported
rrtype — issues no request and does not fail. -/
theorem applyDeleteScan_no_match (existing : Rec) (snap : List VRec)
    (hnomatch : ∀ r ∈ snap, ¬ deleteMatches existing r)
    (hsupported : ∀ r ∈ snap, r.rrtype ≠ "SOA (6)" →
      existing.fqdn = r.ownerName → (lookupA RECORDS_TO_TYPE r.rrtype).isSome) :
    applyDeleteScan existing snap = some [] := by
  induction snap with
  | nil => rfl
  | cons r rest ih =>
    have hr1 := hnomatch r (List.mem_cons_self r rest)
    have hr2 := hsupported r (List.mem_cons_self r rest)
    have ihrest := ih (fun x hx => hnomatch x (List.mem_cons_of_mem r hx))
      (fun x hx => hsupported x (List.mem_cons_of_mem r hx))
    unfold applyDeleteScan
    by_cases hsoa : r.rrtype = "SOA (6)"
    · simp [hsoa, ihrest]
    · rw [if_neg hsoa]
      by_cases hown : existing.fqdn = r.ownerName
      · rw [if_pos hown]
        cases hl : lookupA RECORDS_TO_TYPE r.rrtype with
        | none =>
          have := hr2 hsoa hown
          rw [hl] at this
          exact absurd this (by simp)
        | some ty =>
          have hty : ¬(existing.rtype = ty) := by
            intro he
            exact hr1 ⟨hsoa, hown, by rw [hl, he]⟩
          simp [hty, ihrest]
      · simp [hown, ihrest]

/-- C6 (amended): a Delete whose existing record matches no snapshot entry
on both fqdn and mapped type — provided every non-SOA entry carrying the
record's fqdn has a supported rrtype — issues no HTTP request beyond the
(here cached) lookup and returns normally. -/
theorem delete_no_match_noop (oracle : String → List RRSetPage)
    (st : PState) (existing : Rec) (snap : List VRec)
    (hcache : lookupA st.zoneRecords existing.zoneName = some snap)
    (hnomatch : ∀ r ∈ snap, ¬ deleteMatches existing r)
    (hsupported : ∀ r ∈ snap, r.rrtype ≠ "SOA (6)" →
      existing.fqdn = r.ownerName → (lookupA RECORDS_TO_TYPE r.rrtype).isSome) :
    apply_Delete oracle st existing = some ([], st) := by
  unfold apply_Delete zone_records
  rw [hcache]
  simp [applyDeleteScan_no_match existing snap hnomatch hsupported]

/-- A Delete target: an A record at foo.unit.tests. -/
def ex6 : Rec := ⟨"foo", "A", "foo.unit.tests.", "unit.tests."⟩

/-- A snapshot entry with the same owner name but an unsupported rrtype. -/
def vrec6 : VRec := ⟨"foo.unit.tests.", "SPF (99)", 300, [], []⟩

def st6 : PState := ⟨["unit.tests."], [("unit.tests.", [vrec6])]⟩

/-- C6 counterexample: the existing record matches no snapshot entry on
both fqdn and mapped type, yet `_apply_Delete` raises (a KeyError on the
unsupported rrtype of an entry carrying the same owner name) instead of
returning normally. -/
theorem delete_no_match_counterexample :
    ¬ deleteMatches ex6 vrec6 ∧
      apply_Delete (fun _ => []) st6 ex6 = none :=
  ⟨by decide, rfl⟩

/-- A snapshot whose only entry differs from the target in owner name. -/
def vrec6w : VRec := ⟨"bar.unit.tests.", "A (1)", 300, [], []⟩

def st6w : PState := ⟨["unit.tests."], [("unit.tests.", [vrec6w])]⟩

/-- C6 witness: the amended theorem applied at a concrete no-match state. -/
theorem delete_no_match_noop_witness :
    lookupA st6w.zoneRecords ex6.zoneName = some [vrec6w] ∧
      apply_Delete (fun _ => []) st6w ex6 = some ([], st6w) :=
  ⟨rfl, delete_no_match_noop (fun _ => []) st6w ex6 [vrec6w] rfl
    (by decide) (by decide)⟩

/-- Helper for C9: the delete scan fails with a KeyError as soon as the
snapshot holds a non-SOA entry carrying the record's owner name whose
rrtype is not in RECORDS_TO_TYPE. -/
theorem applyDeleteScan_keyerror (existing : Rec) (snap : List VRec)
    (hbad : ∃ r ∈ snap, r.rrtype ≠ "SOA (6)" ∧ r.ownerName = existing.fqdn ∧
      lookupA RECORDS_TO_TYPE r.rrtype = none) :
    applyDeleteScan existing snap = none := by
  induction snap with
  | nil =>
    obtain ⟨r, hr, _⟩ := hbad
    exact absurd hr (List.not_mem_nil r)
  | cons r rest ih =>
    obtain ⟨x, hx, hxs, hxo, hxl⟩ := hbad
    unfold applyDeleteScan
    rcases List.mem_cons.mp hx with heq | hmem
    · subst heq
      rw [if_neg hxs, if_pos hxo.symm, hxl]
    · have hrest := ih ⟨x, hmem, hxs, hxo, hxl⟩
      by_cases hsoa : r.rrtype = "SOA (6)"
      · simp [hsoa, hrest]
      · rw [if_neg hsoa]
        by_cases hown : existing.fqdn = r.ownerName
        · rw [if_pos hown]
          cases hl : lookupA RECORDS_TO_TYPE r.rrtype with
          | none => rfl
          | some ty =>
            by_cases hty : existing.rtype = ty
            · simp [hty, hrest]
            · simp [hty, hrest]
        · simp [hown, hrest]

/-- C9 (amended): `_apply_Delete` raises a KeyError whenever the zone's
snapshot holds a non-SOA entry whose ownerName equals the existing record's
fqdn and whose rrtype is not in the supported type table — even when the
target matches another entry — whereas populate's filtering keeps only
records with supported rrtypes and never fails on unsupported ones. -/
theorem delete_unknown_rrtype_keyerror :
    (∀ (oracle : String → List RRSetPage) (st : PState) (existing : Rec)
        (snap : List VRec),
      lookupA st.zoneRecords existing.zoneName = some snap →
      (∃ r ∈ snap, r.rrtype ≠ "SOA (6)" ∧ r.ownerName = existing.fqdn ∧
        lookupA RECORDS_TO_TYPE r.rrtype = none) →
      apply_Delete oracle st existing = none) ∧
    (∀ (records : List VRec) (r : VRec), r ∈ populateKept records →
      (lookupA RECORDS_TO_TYPE r.rrtype).isSome) := by
  constructor
  · intro oracle st existing snap hcache hbad
    unfold apply_Delete zone_records
    rw [hcache]
    simp [applyDeleteScan_keyerror existing snap hbad]
  · intro records
    induction records with
    | nil => intro r hr; exact absurd hr (List.not_mem_nil r)
    | cons x rest ih =>
      intro r hr
      unfold populateKept at hr
      by_cases hsoa : x.rrtype = "SOA (6)"
      · rw [if_pos hsoa] at hr
        exact ih r hr
      · rw [if_neg hsoa] at hr
        by_cases hdir : x.rrtype = "A (1)" ∧
            lookupA x.profile "@context" = some DirPoolContext
        · rw [if_pos hdir] at hr
          exact ih r hr
        · rw [if_neg hdir] at hr
          cases hl : lookupA RECORDS_TO_TYPE x.rrtype with
          | none =>
            rw [hl] at hr
            exact ih r hr
          | some ty =>
            rw [hl] at hr
            rcases List.mem_cons.mp hr with heq | hmem
            · subst heq
              rw [hl]
              rfl
            · exact ih r hmem

/-- A snapshot where an entry with a different owner name has an
unsupported rrtype and a later entry matches the delete target. -/
def vrec9a : VRec := ⟨"other.unit.tests.", "SPF (99)", 300, [], []⟩

def vrec9b : VRec := ⟨"foo.unit.tests.", "A (1)", 300, [], []⟩

def st9 : PState := ⟨["unit.tests."], [("unit.tests.", [vrec9a, vrec9b])]⟩

/-- C9 counterexample: the snapshot holds a non-SOA entry with an
unsupported rrtype, yet `_apply_Delete` does not raise — the short-circuit
`and` skips the type lookup because that entry's owner name differs — and
the matching later entry is deleted. -/
theorem delete_unknown_rrtype_counterexample :
    vrec9a ∈ [vrec9a, vrec9b] ∧ vrec9a.rrtype ≠ "SOA (6)" ∧
      lookupA RECORDS_TO_TYPE vrec9a.rrtype = none ∧
      apply_Delete (fun _ => []) st9 ex6 =
        some ([Req.deleteRRSet (deletePath ex6)], st9) :=
  ⟨by decide, by decide, by decide, rfl⟩

/-- A snapshot whose only entry carries the target's owner name with an
unsupported rrtype. -/
def vrec9w : VRec := ⟨"foo.unit.tests.", "SPF (99)", 300, [], []⟩

def st9w : PState := ⟨["unit.tests."], [("unit.tests.", [vrec9w])]⟩

/-- C9 witness: the amended theorem applied at a concrete state. -/
theorem delete_unknown_rrtype_keyerror_witness :
    apply_Delete (fun _ => []) st9w ex6 = none :=
  delete_unknown_rrtype_keyerror.1 (fun _ => []) st9w ex6 [vrec9w] rfl
    ⟨vrec9w, by decide, by decide, by decide, by decide⟩

/-- The change operations consumed by `_apply`.  `update` keeps the record
the applier reads (`change.new`; the rewrite builds `Update(None, record)`). -/
inductive Change where
  | create (record : Rec)
  | update (record : Rec)
  | delete (record : Rec)
deriving DecidableEq

/-- Model of `_force_root_ns_update`: every Create of a root NS record
(relative name empty, type NS) becomes an Update; everything else is kept. -/
def force_root_ns_update (changes : List Change) : List Change :=
  changes.map (fun change =>
    match change with
    | Change.create r =>
      if r.name = "" ∧ r.rtype = "NS" then Change.update r else change
    | _ => change)

/-- Dispatch of one change: `_apply_Create` POSTs to the `_gen_data` path,
`_apply_Update` PUTs to it, `_apply_Delete` runs the snapshot scan. -/
def applyChange (oracle : String → List RRSetPage) (st : PState) :
    Change → Option (List Req × PState)
  | .create r => some ([Req.postRRSet (genPath r)], st)
  | .update r => some ([Req.putRRSet (genPath r)], st)
  | .delete r => apply_Delete oracle st r

/-- The change loop of `_apply`: changes processed in order, requests
concatenated, state threaded; a raise in any change aborts the loop. -/
def applyChanges (oracle : String → List RRSetPage) :
    PState → List Change → Option (List Req × PState)
  | st, [] => some ([], st)
  | st, change :: rest =>
    (applyChange oracle st change).bind (fun p =>
      (applyChanges oracle p.2 rest).map (fun q => (p.1 ++ q.1, q.2)))

/-- Model of `_apply` (with the zone list already fetched): a desired zone
absent from the zone list is first created (POST /v2/zones with the account
name and the new-primary-zone marker), appended to the zone list, its
record cache seeded empty, and the changes rewritten by
`_force_root_ns_update`; then every change is applied in order and the
per-zone record cache entry for the zone is popped. -/
def applyFn (oracle : String → List RRSetPage) (account : String)
    (st : PState) (name : String) (changes : List Change) :
    Option (List Req × PState) :=
  if name ∈ st.zones then
    (applyChanges oracle st changes).map
      (fun p => (p.1, { p.2 with zoneRecords := popA p.2.zoneRecords name }))
  else
    (applyChanges oracle
        { zones := st.zones ++ [name],
          zoneRecords := setA st.zoneRecords name [] }
        (force_root_ns_update changes)).map
      (fun p => (Req.postZoneCreate ⟨name, account, "PRIMARY", "NEW"⟩ :: p.1,
        { p.2 with zoneRecords := popA p.2.zoneRecords name }))

theorem zone_records_shape (oracle : String → List RRSetPage) (st : PState)
    (zname : String) (recs : List VRec) (reqs : List Req) (st' : PState)
    (h : zone_records oracle st zname = some (recs, reqs, st')) :
    st' = st ∨
      st' = { st with zoneRecords := setA st.zoneRecords zname recs } := by
  unfold zone_records at h
  cases hl : lookupA st.zoneRecords zname with
  | some r0 =>
    rw [hl] at h
    injection h with h'
    injection h' with ha h''
    injection h'' with hb hc
    exact Or.inl hc.symm
  | none =>
    rw [hl] at h
    by_cases hm : zname ∈ st.zones
    · rw [if_pos hm] at h
      cases hx : rrsetLoop zname RRSET_REQUEST_LIMIT (oracle zname) 0 with
      | none =>
        rw [hx] at h
        exact nomatch h
      | some r =>
        rw [hx] at h
        simp only [Option.map_some'] at h
        injection h with h'
        injection h' with ha h''
        injection h'' with hb hc
        right
        rw [← hc, ha]
    · rw [if_neg hm] at h
      injection h with h'
      injection h' with ha h''
      injection h'' with hb hc
      exact Or.inl hc.symm

theorem zone_records_frame (oracle : String → List RRSetPage) (st : PState)
    (zname : String) (recs : List VRec) (reqs : List Req) (st' : PState)
    (h : zone_records oracle st zname = some (recs, reqs, st')) :
    st'.zones = st.zones ∧
      ∀ k, k ≠ zname →
        lookupA st'.zoneRecords k = lookupA st.zoneRecords k := by
  rcases zone_records_shape oracle st zname recs reqs st' h with h1 | h1 <;>
    subst h1
  · exact ⟨rfl, fun k hk => rfl⟩
  · exact ⟨rfl, fun k hk =>
      lookupA_setA_ne st.zoneRecords zname k recs (fun he => hk he.symm)⟩

theorem apply_Delete_frame (oracle : String → List RRSetPage) (st : PState)
    (existing : Rec) (trace : List Req) (st' : PState)
    (h : apply_Delete oracle st existing = some (trace, st')) :
    st'.zones = st.zones ∧
      ∀ k, k ≠ existing.zoneName →
        lookupA st'.zoneRecords k = lookupA st.zoneRecords k := by
  unfold apply_Delete at h
  cases hz : zone_records oracle st existing.zoneName with
  | none =>
    rw [hz] at h
    exact nomatch h
  | some r =>
    obtain ⟨recs, reqs, st1⟩ := r
    rw [hz] at h
    simp only [Option.some_bind] at h
    cases hs : applyDeleteScan existing recs with
    | none =>
      rw [hs] at h
      exact nomatch h
    | some dreqs =>
      rw [hs] at h
      simp only [Option.map_some'] at h
      injection h with h'
      injection h' with ha hb
      subst hb
      exact zone_records_frame oracle st existing.zoneName recs reqs st1 hz

theorem applyChange_frame (oracle : String → List RRSetPage) (st : PState)
    (c : Change) (trace : List Req) (st' : PState)
    (h : applyChange oracle st c = some (trace, st')) :
    st'.zones = st.zones ∧
      ∀ k, (∀ r, c = Change.delete r → r.zoneName ≠ k) →
        lookupA st'.zoneRecords k = lookupA st.zoneRecords k := by
  cases c with
  | create r =>
    injection h with h'
    injection h' with ha hb
    subst hb
    exact ⟨rfl, fun k _ => rfl⟩
  | update r =>
    injection h with h'
    injection h' with ha hb
    subst hb
    exact ⟨rfl, fun k _ => rfl⟩
  | delete r =>
    obtain ⟨hz, hf⟩ := apply_Delete_frame oracle st r trace st' h
    exact ⟨hz, fun k hk => hf k (fun he => hk r rfl he.symm)⟩

theorem applyChanges_frame (oracle : String → List RRSetPage) :
    ∀ (changes : List Change) (st : PState) (trace : List Req) (st' : PState),
    applyChanges oracle st changes = some (trace, st') →
    st'.zones = st.zones ∧
      ∀ k, (∀ r, Change.delete r ∈ changes → r.zoneName ≠ k) →
        lookupA st'.zoneRecords k = lookupA st.zoneRecords k := by
  intro changes
  induction changes with
  | nil =>
    intro st trace st' h
    injection h with h'
    injection h' with ha hb
    subst hb
    exact ⟨rfl, fun k _ => rfl⟩
  | cons c rest ih =>
    intro st trace st' h
    unfold applyChanges at h
    cases h1 : applyChange oracle st c with
    | none =>
      rw [h1] at h
      exact nomatch h
    | some p =>
      obtain ⟨tr1, st1⟩ := p
      rw [h1] at h
      simp only [Option.some_bind] at h
      cases h2 : applyChanges oracle st1 rest with
      | none =>
        rw [h2] at h
        exact nomatch h
      | some q =>
        obtain ⟨tr2, st2⟩ := q
        rw [h2] at h
        simp only [Option.map_some'] at h
        injection h with h'
        injection h' with ha hb
        subst hb
        obtain ⟨hz1, hf1⟩ := applyChange_frame oracle st c tr1 st1 h1
        obtain ⟨hz2, hf2⟩ := ih st1 tr2 st2 h2
        constructor
        · rw [hz2, hz1]
        · intro k hk
          have hk1 : ∀ r, c = Change.delete r → r.zoneName ≠ k :=
            fun r hr => hk r (by rw [← hr]; exact List.mem_cons_self c rest)
          have hk2 : ∀ r, Change.delete r ∈ rest → r.zoneName ≠ k :=
            fun r hr => hk r (List.mem_cons_of_mem c hr)
          rw [hf2 k hk2, hf1 k hk1]

/-- C2: when the desired zone is absent from the cached zone list, `_apply`
issues the zone-creation POST first (ahead of every rrset request), appends
the zone to the cached list, seeds an empty record cache entry, and
processes the changes with every Create of the zone-apex NS record (relative
name empty, type NS) rewritten into an Update; when the zone is already
listed, the original changes are processed with no rewrite. -/
theorem apply_new_zone_spec (oracle : String → List RRSetPage)
    (account : String) (st : PState) (name : String) (changes : List Change) :
    (name ∉ st.zones →
      applyFn oracle account st name changes =
        (applyChanges oracle
            { zones := st.zones ++ [name],
              zoneRecords := setA st.zoneRecords name [] }
            (changes.map (fun change =>
              match change with
              | Change.create r =>
                if r.name = "" ∧ r.rtype = "NS" then Change.update r
                else change
              | _ => change))).map
          (fun p =>
            (Req.postZoneCreate ⟨name, account, "PRIMARY", "NEW"⟩ :: p.1,
              { p.2 with zoneRecords := popA p.2.zoneRecords name }))) ∧
    (name ∉ st.zones → ∀ (trace : List Req) (st2 : PState),
      applyFn oracle account st name changes = some (trace, st2) →
      trace.head? =
          some (Req.postZoneCreate ⟨name, account, "PRIMARY", "NEW"⟩) ∧
        st2.zones = st.zones ++ [name]) ∧
    (name ∈ st.zones →
      applyFn oracle account st name changes =
        (applyChanges oracle st changes).map
          (fun p =>
            (p.1, { p.2 with zoneRecords := popA p.2.zoneRecords name }))) := by
  refine ⟨?_, ?_, ?_⟩
  · intro h
    unfold applyFn
    rw [if_neg h]
    rfl
  · intro h trace st2 hres
    unfold applyFn at hres
    rw [if_neg h] at hres
    cases hx : applyChanges oracle
        { zones := st.zones ++ [name],
          zoneRecords := setA st.zoneRecords name [] }
        (force_root_ns_update changes) with
    | none =>
      rw [hx] at hres
      exact nomatch hres
    | some p =>
      obtain ⟨ptr, pst⟩ := p
      rw [hx] at hres
      simp only [Option.map_some'] at hres
      injection hres with h'
      injection h' with ha hb
      obtain ⟨hz, _⟩ := applyChanges_frame oracle (force_root_ns_update changes)
        { zones := st.zones ++ [name],
          zoneRecords := setA st.zoneRecords name [] } ptr pst hx
      constructor
      · rw [← ha]
        rfl
      · rw [← hb]
        exact hz
  · intro h
    unfold applyFn
    rw [if_pos h]

/-- The apex NS record of a zone about to be created. -/
def recNS : Rec := ⟨"", "NS", "newzone.example.", "newzone.example."⟩

def stW2 : PState := ⟨["other.example."], []⟩

def orc0 : String → List RRSetPage := fun _ => []

def tr20 : List Req :=
  [Req.postZoneCreate ⟨"newzone.example.", "acct", "PRIMARY", "NEW"⟩,
    Req.putRRSet (genPath recNS)]

def st20 : PState := ⟨["other.example.", "newzone.example."], []⟩

/-- C2 witness: a concrete apply of a root-NS Create onto an absent zone —
the trace opens with the zone-creation POST (and the create became a PUT),
and the zone was appended to the cached list. -/
theorem apply_new_zone_spec_witness :
    ("newzone.example." ∉ stW2.zones) ∧
      applyFn orc0 "acct" stW2 "newzone.example." [Change.create recNS] =
        some (tr20, st20) ∧
      tr20.head? =
        some (Req.postZoneCreate ⟨"newzone.example.", "acct", "PRIMARY", "NEW"⟩) ∧
      st20.zones = stW2.zones ++ ["newzone.example."] :=
  ⟨by decide, rfl,
    ((apply_new_zone_spec orc0 "acct" stW2 "newzone.example."
        [Change.create recNS]).2.1 (by decide) tr20 st20 rfl).1,
    ((apply_new_zone_spec orc0 "acct" stW2 "newzone.example."
        [Change.create recNS]).2.1 (by decide) tr20 st20 rfl).2⟩

theorem delete_mem_force (changes : List Change) (r : Rec)
    (h : Change.delete r ∈ force_root_ns_update changes) :
    Change.delete r ∈ changes := by
  unfold force_root_ns_update at h
  obtain ⟨c, hc, he⟩ := List.mem_map.mp h
  cases c with
  | create r0 =>
    dsimp at he
    by_cases hcond : r0.name = "" ∧ r0.rtype = "NS"
    · rw [if_pos hcond] at he
      exact nomatch he
    · rw [if_neg hcond] at he
      exact nomatch he
  | update r0 =>
    dsimp at he
    exact nomatch he
  | delete r0 =>
    dsimp at he
    injection he with h0
    exact h0 ▸ hc

/-- C8: after `_apply` finishes all the changes of a zone (the changes'
deletes targeting that zone), the per-zone record cache entry for the zone
name is removed and every other zone's cache entry is unchanged. -/
theorem apply_cache_invalidation (oracle : String → List RRSetPage)
    (account : String) (st : PState) (name : String) (changes : List Change)
    (trace : List Req) (st2 : PState)
    (hdel : ∀ r : Rec, Change.delete r ∈ changes → r.zoneName = name)
    (hres : applyFn oracle account st name changes = some (trace, st2)) :
    lookupA st2.zoneRecords name = none ∧
      ∀ k, k ≠ name →
        lookupA st2.zoneRecords k = lookupA st.zoneRecords k := by
  unfold applyFn at hres
  by_cases hm : name ∈ st.zones
  · rw [if_pos hm] at hres
    cases hx : applyChanges oracle st changes with
    | none =>
      rw [hx] at hres
      exact nomatch hres
    | some p =>
      obtain ⟨ptr, pst⟩ := p
      rw [hx] at hres
      simp only [Option.map_some'] at hres
      injection hres with h'
      injection h' with ha hb
      obtain ⟨hz, hf⟩ := applyChanges_frame oracle changes st ptr pst hx
      subst hb
      constructor
      · exact lookupA_popA_self pst.zoneRecords name
      · intro k hk
        rw [show ({ pst with zoneRecords := popA pst.zoneRecords name } :
            PState).zoneRecords = popA pst.zoneRecords name from rfl]
        rw [lookupA_popA_ne pst.zoneRecords name k hk]
        exact hf k (fun r hr he =>
          hk (((hdel r hr).symm.trans he).symm))
  · rw [if_neg hm] at hres
    cases hx : applyChanges oracle
        { zones := st.zones ++ [name],
          zoneRecords := setA st.zoneRecords name [] }
        (force_root_ns_update changes) with
    | none =>
      rw [hx] at hres
      exact nomatch hres
    | some p =>
      obtain ⟨ptr, pst⟩ := p
      rw [hx] at hres
      simp only [Option.map_some'] at hres
      injection hres with h'
      injection h' with ha hb
      obtain ⟨hz, hf⟩ := applyChanges_frame oracle (force_root_ns_update changes)
        { zones := st.zones ++ [name],
          zoneRecords := setA st.zoneRecords name [] } ptr pst hx
      subst hb
      constructor
      · exact lookupA_popA_self pst.zoneRecords name
      · intro k hk
        rw [show ({ pst with zoneRecords := popA pst.zoneRecords name } :
            PState).zoneRecords = popA pst.zoneRecords name from rfl]
        rw [lookupA_popA_ne pst.zoneRecords name k hk]
        rw [hf k (fun r hr he =>
          hk (((hdel r (delete_mem_force changes r hr)).symm.trans he).symm))]
        exact lookupA_setA_ne st.zoneRecords name k [] (fun he => hk he.symm)

def st8w : PState := ⟨["z.example.", "w.example."], [("z.example.", [])]⟩

def st8w' : PState := ⟨["z.example.", "w.example."], []⟩

/-- C8 witness: an apply with no changes pops the zone's cache entry and
leaves the other zone's (absent) entry unchanged. -/
theorem apply_cache_invalidation_witness :
    applyFn orc0 "acct" st8w "z.example." [] = some ([], st8w') ∧
      lookupA st8w'.zoneRecords "z.example." = none ∧
      lookupA st8w'.zoneRecords "w.example." =
        lookupA st8w.zoneRecords "w.example." :=
  ⟨rfl,
    (apply_cache_invalidation orc0 "acct" st8w "z.example." [] [] st8w'
      (fun r h => nomatch h) rfl).1,
    (apply_cache_invalidation orc0 "acct" st8w "z.example." [] [] st8w'
      (fun r h => nomatch h) rfl).2 "w.example." (by decide)⟩

end UltraSpec
